import Mathlib

/-!
Shallow embedding of `src/jsauce/core.ts` (jsauce): a process manager that
launches local actor processes, performs a handshake bounded by a timeout,
keeps a table of owned processes keyed by PID identity, and routes outbound
messages by mailbox address.

External collaborators (the thicket transport: exchange, mailboxes,
couriers; the bluebird promise library; the mori persistent hash map) are
modelled by the minimal semantics the core relies on:
* a mailbox carries a single string address, returned both by `id()` and by
  `ownerIdentity()`;
* bluebird's `.timeout(T)` on a pending request settles with the request's
  own outcome when that outcome arrives strictly before `T`, and rejects
  with `Promise.TimeoutError` otherwise; once the timeout has fired, a late
  settlement of the underlying request never runs the chained continuation;
* `mori.hashMap` / `assoc` / `hasKey` / `get` form a persistent
  string-keyed map, modelled as an association list that `assoc` keeps free
  of duplicate keys (map replace semantics).

The asynchrony inside `_launchLocal` is resolved by an explicit environment
(`LaunchEnv`): the fresh UUID the exchange hands out for the new process
mailbox, and the outcome of the handshake send-and-receive (a reply at some
arrival time, a transport/delegate failure at some arrival time, or no
settlement at all). State mutation (`this._procs = ...`) becomes explicit
state passing: each operation returns the manager state it leaves behind.
-/

/-- An untyped JavaScript value, as far as the core manipulates one: the
`data` payload of a `message` envelope is `any`, with `null` as the
builder's default. -/
inductive JsVal where
  | null
  | bool (b : Bool)
  | num (n : Int)
  | str (s : String)
deriving DecidableEq, Repr

/-- Model of `mori.hashMap()`: the empty persistent map. -/
def mori.hashMap {α : Type} : List (String × α) := []

/-- Model of `mori.assoc(m, k, v)`: set key `k` to `v`, replacing any
existing entry for `k` (persistent-map semantics, so the list never holds
two entries with the same key once built through `assoc`). -/
def mori.assoc {α : Type} (m : List (String × α)) (k : String) (v : α) :
    List (String × α) :=
  (k, v) :: m.filter (fun e => !(e.1 == k))

/-- Model of `mori.hasKey(m, k)`. -/
def mori.hasKey {α : Type} (m : List (String × α)) (k : String) : Bool :=
  m.any (fun e => e.1 == k)

/-- Model of `mori.get(m, k)`. -/
def mori.get {α : Type} (m : List (String × α)) (k : String) : Option α :=
  (m.find? (fun e => e.1 == k)).map (fun e => e.2)

/-- Number of entries of the table that are keyed `k` (used to state that a
successful launch leaves exactly one entry for the new PID's id). -/
def mori.countKey {α : Type} (m : List (String × α)) (k : String) : Nat :=
  (m.filter (fun e => e.1 == k)).length

/-- Model of a thicket mailbox: an addressable endpoint with a single
string address. The core reads it through `id()` and `ownerIdentity()`. -/
structure Mailbox where
  identity : String
deriving DecidableEq, Repr

/-- Mailbox `id()`: its address. -/
def Mailbox.id (mb : Mailbox) : String := mb.identity

/-- Mailbox `ownerIdentity()`: the identity the mailbox was created under,
which for an exchange-created mailbox is its address. -/
def Mailbox.ownerIdentity (mb : Mailbox) : String := mb.identity

/-- Model of `exchange.mailbox(ident)`: allocates the mailbox addressed by
`ident` (the caller passes a fresh `UUID.v4()`). -/
def Exchange.mailbox (ident : String) : Mailbox := { identity := ident }

/-- `Defaults.DefaultProcessHandshakeTimeout` from `core.ts`. -/
def Defaults.DefaultProcessHandshakeTimeout : Nat := 1000

/-- The ways a `launch` promise can reject, from `Errors` in `core.ts`
plus propagated transport-level failures (carried unmodified as the
`transport` payload). -/
inductive LaunchError where
  | InvalidProcessSpecType
  | HandshakeTimeoutError
  | transport (e : String)
deriving DecidableEq, Repr

/-- A bluebird promise rejection as seen by the `.catch(Promise.TimeoutError, ...)`
handler: either the distinguished `Promise.TimeoutError` or any other
rejection reason. -/
inductive PromiseRejection where
  | TimeoutError
  | other (e : String)
deriving DecidableEq, Repr

/-- Outcome of the handshake `sendAndReceive`, before the timeout is
applied: a reply settling at `arrival` time-units, a transport or delegate
failure settling at `arrival` time-units, or no settlement ever. -/
inductive HandshakeEvent where
  | reply (arrival : Nat)
  | failure (arrival : Nat) (e : String)
  | silent
deriving DecidableEq, Repr

/-- Model of bluebird's `.timeout(bound)` applied to the handshake
send-and-receive: the underlying outcome wins when it settles strictly
before `bound`, otherwise the timer fires and the chain rejects with
`Promise.TimeoutError` (and any late settlement is discarded). -/
def timeoutRace (bound : Nat) (ev : HandshakeEvent) : Except PromiseRejection Unit :=
  match ev with
  | .reply arrival => if arrival < bound then .ok () else .error .TimeoutError
  | .failure arrival e => if arrival < bound then .error (.other e) else .error .TimeoutError
  | .silent => .error .TimeoutError

/-- Model of the JavaScript expression `x || d` for
`x : number | undefined`: both `undefined` and `0` are falsy, so they fall
back to `d`. This is exactly how `_launchLocal` resolves the handshake
timeout bound. -/
def jsOr (x : Option Nat) (d : Nat) : Nat :=
  match x with
  | some t => if t = 0 then d else t
  | none => d

/-- A `message`-typed envelope (`IMessageMessage`): the `mType` tag and the
`data` payload. -/
structure IMessageMessage where
  mType : String
  data : JsVal
deriving DecidableEq, Repr

/-- `Messages.Message`: the `message` envelope builder made by
`Lang.makeMTypeBuilder("message", ["data"], { defaults: {data: null} })`;
an absent `data` field defaults to `null`. -/
def Messages.Message (data : Option JsVal) : IMessageMessage :=
  { mType := "message", data := data.getD JsVal.null }

/-- A `handshake`-typed envelope (`IHandshakeMessage`): carries only its tag. -/
structure IHandshakeMessage where
  mType : String
deriving DecidableEq, Repr

/-- `Messages.Handshake`: the `handshake` envelope builder made by
`Lang.makeMTypeBuilder("handshake")`. -/
def Messages.Handshake : IHandshakeMessage := { mType := "handshake" }

/-- The (currently empty) process context handed to the delegate builder:
`_createDelegateContext` returns `{}`. -/
abbrev IProcessContext := Unit

/-- A caller-supplied delegate. The core never inspects a delegate beyond
building it and storing it in the process, so it is opaque here; the `tag`
only lets distinct delegates exist in the model. -/
structure ILocalProcessDelegate where
  tag : Nat := 0
deriving DecidableEq, Repr

/-- `IProcessSpec` merged with the fields of `ILocalProcessSpec` (the code
casts `spec` to `ILocalProcessSpec` on the local path, mirroring TypeScript
structural typing). `pType` is `"local"` or `"remote"` (or anything else,
which is invalid). -/
structure IProcessSpec where
  pType : String
  handshakeTimeout : Option Nat := none
  delegateBuilder : IProcessContext → ILocalProcessDelegate := fun _ => {}

/-- `LocalProcess`: identity string, the owning manager's mailbox address,
the bound mailbox, and the delegate (the constructor also builds a courier
binding mailbox to delegate; the courier adds no observable state beyond
the two). -/
structure LocalProcess where
  id : String
  processManagerMailboxId : String
  mailbox : Mailbox
  delegate : ILocalProcessDelegate
deriving DecidableEq, Repr

/-- `LocalProcess.mailboxId()`: returns `this._mailbox.id()`. -/
def LocalProcess.mailboxId (p : LocalProcess) : String := p.mailbox.id

/-- `ProcessManager` state: the process table `_procs` (a mori map whose
values are the `LocalProcess` objects inserted by `_launchLocal`; the
declared annotation says `IPid` but the stored values are processes), the
manager's own mailbox, and `_handshakeTimeout`. -/
structure ProcessManager where
  procs : List (String × LocalProcess)
  mailbox : Mailbox
  handshakeTimeout : Nat
deriving DecidableEq, Repr

/-- The `ProcessManager` constructor: empty table, a mailbox under the
given (or freshly generated) id, and the default handshake timeout. -/
def ProcessManager.create (selfMailboxId : String) : ProcessManager :=
  { procs := mori.hashMap
    mailbox := Exchange.mailbox selfMailboxId
    handshakeTimeout := Defaults.DefaultProcessHandshakeTimeout }

/-- `ProcessManager.mailboxId()`: returns `this._mailbox.id()`. -/
def ProcessManager.mailboxId (m : ProcessManager) : String := m.mailbox.id

/-- `_createDelegateContext()`: returns the empty context `{}`. -/
def ProcessManager.createDelegateContext (_m : ProcessManager) : IProcessContext := ()

/-- `LocalPid`: wraps the mailbox address it was constructed with
(`_mailboxId`) and a back-reference to the owning manager
(`_processManager`). -/
structure LocalPid where
  mailboxId : String
  processManager : ProcessManager
deriving DecidableEq, Repr

/-- `LocalPid.id()`: returns `this._mailboxId` (the opaque identity). -/
def LocalPid.id (p : LocalPid) : String := p.mailboxId

/-- The observable effect of a courier `send`: which mailbox sent, which
mailbox address it was sent to, and the envelope. -/
structure SentEnvelope where
  sender : String
  toId : String
  msg : IMessageMessage
deriving DecidableEq, Repr

/-- `ProcessManager.sendMessage(processMailboxId, data)`: builds a
`Message` envelope around `data` and hands it to the courier addressed to
`processMailboxId`. It consults nothing else — in particular not the
process table. -/
def ProcessManager.sendMessage (m : ProcessManager) (processMailboxId : String)
    (data : JsVal) : SentEnvelope :=
  { sender := m.mailboxId
    toId := processMailboxId
    msg := Messages.Message (some data) }

/-- `LocalPid.send(data)`: delegates to
`this._processManager.sendMessage(this._mailboxId, data)`. -/
def LocalPid.send (p : LocalPid) (data : JsVal) : SentEnvelope :=
  p.processManager.sendMessage p.mailboxId data

/-- `ProcessManager.doesOwn(pid)`: whether `pid.id()` is a key of the
process table. -/
def ProcessManager.doesOwn (m : ProcessManager) (pid : LocalPid) : Bool :=
  mori.hasKey m.procs pid.id

/-- `ProcessManager.dispose()`: the body is empty, so in state-passing form
it is the identity on the manager state. -/
def ProcessManager.dispose (m : ProcessManager) : ProcessManager := m

/-- The environment a single `launch` call runs in: the fresh `UUID.v4()`
the exchange assigns to the new process mailbox, and the outcome of the
handshake send-and-receive. -/
structure LaunchEnv where
  freshMailboxUuid : String
  handshakeEvent : HandshakeEvent
deriving DecidableEq, Repr

deriving instance DecidableEq for Except

/-- Everything a `launch` call leaves behind: the settled promise value,
the manager state at return time, the mailboxes allocated from the
exchange during the call, and the handshake request the courier sent (if
the local path was taken). -/
structure LaunchOutcome where
  result : Except LaunchError LocalPid
  mgr : ProcessManager
  allocatedMailboxes : List String
  handshakeRequest : Option (String × IHandshakeMessage)
deriving DecidableEq, Repr

/-- `ProcessManager._launchLocal(spec)`: allocate a fresh mailbox, build
the delegate, construct the PID and the process, send a `Handshake`
envelope and await the reply under `.timeout(spec.handshakeTimeout ||
this._handshakeTimeout)`; on an in-time reply insert `pid.id() -> proc`
into the table and resolve with the PID; on `Promise.TimeoutError` reject
with `Errors.HandshakeTimeoutError`; any other rejection propagates
unmodified. -/
def ProcessManager.launchLocal (m : ProcessManager) (spec : IProcessSpec)
    (env : LaunchEnv) : LaunchOutcome :=
  let mbox := Exchange.mailbox env.freshMailboxUuid
  let processContext := m.createDelegateContext
  let delegate := spec.delegateBuilder processContext
  let pid : LocalPid := { mailboxId := mbox.ownerIdentity, processManager := m }
  let proc : LocalProcess :=
    { id := pid.id
      processManagerMailboxId := m.mailboxId
      mailbox := mbox
      delegate := delegate }
  let bound := jsOr spec.handshakeTimeout m.handshakeTimeout
  match timeoutRace bound env.handshakeEvent with
  | .ok _ =>
      { result := .ok pid
        mgr := { m with procs := mori.assoc m.procs pid.id proc }
        allocatedMailboxes := [mbox.id]
        handshakeRequest := some (mbox.ownerIdentity, Messages.Handshake) }
  | .error .TimeoutError =>
      { result := .error .HandshakeTimeoutError
        mgr := m
        allocatedMailboxes := [mbox.id]
        handshakeRequest := some (mbox.ownerIdentity, Messages.Handshake) }
  | .error (.other e) =>
      { result := .error (.transport e)
        mgr := m
        allocatedMailboxes := [mbox.id]
        handshakeRequest := some (mbox.ownerIdentity, Messages.Handshake) }

/-- `ProcessManager.launch(spec)`: dispatch on `spec.pType`; `"local"`
takes the `_launchLocal` path, anything else rejects with
`Errors.InvalidProcessSpecType` before touching the exchange or the
table. -/
def ProcessManager.launch (m : ProcessManager) (spec : IProcessSpec)
    (env : LaunchEnv) : LaunchOutcome :=
  if spec.pType = "local" then
    m.launchLocal spec env
  else
    { result := .error .InvalidProcessSpecType
      mgr := m
      allocatedMailboxes := []
      handshakeRequest := none }

/-- The `LocalProcess` that `_launchLocal` constructs and (on handshake
success) inserts into the table: keyed by the new PID's id (the fresh
mailbox address), remembering the manager's mailbox address, the fresh
mailbox and the delegate the spec's builder produced. -/
def launchedProcOf (m : ProcessManager) (spec : IProcessSpec) (env : LaunchEnv) :
    LocalProcess :=
  { id := env.freshMailboxUuid
    processManagerMailboxId := m.mailboxId
    mailbox := Exchange.mailbox env.freshMailboxUuid
    delegate := spec.delegateBuilder () }

/-! ### Concrete fixtures for evaluating the model on closed inputs -/

/-- A freshly constructed manager whose own mailbox is `pm-0`. -/
def mgr0 : ProcessManager := ProcessManager.create "pm-0"

/-- A local process spec with no per-launch timeout override and the
default (trivial) delegate builder. -/
def spec0 : IProcessSpec := { pType := "local" }

/-- A spec whose type tag is `remote` (unimplemented upstream). -/
def specRemote : IProcessSpec := { pType := "remote" }

/-- A launch environment whose fresh mailbox is `uuid-1` and whose
handshake reply arrives after 5 time-units (within the default 1000). -/
def env0 : LaunchEnv := { freshMailboxUuid := "uuid-1", handshakeEvent := .reply 5 }

/-- A launch environment whose fresh mailbox is `uuid-2` and whose
handshake reply arrives after 7 time-units. -/
def env2 : LaunchEnv := { freshMailboxUuid := "uuid-2", handshakeEvent := .reply 7 }

/-- A launch environment whose handshake reply arrives only after 2000
time-units — later than the default 1000 bound. -/
def envLate : LaunchEnv := { freshMailboxUuid := "uuid-1", handshakeEvent := .reply 2000 }

/-- A launch environment whose handshake send-and-receive rejects after 3
time-units with the transport-level reason `boom`. -/
def envFail : LaunchEnv := { freshMailboxUuid := "uuid-1", handshakeEvent := .failure 3 "boom" }

/-- The PID a launch of `spec0` under `env0` hands back: mailbox address
`uuid-1`, back-reference to `mgr0`. -/
def pid0 : LocalPid := { mailboxId := "uuid-1", processManager := mgr0 }

/-- The manager state after `mgr0` successfully launched `spec0` under
`env0`: its table owns `uuid-1`. -/
def mgr1 : ProcessManager := (mgr0.launch spec0 env0).mgr

/-- The PID handed back by a second launch (under `env2`) on the manager
state `mgr1` left by the first. -/
def pid2 : LocalPid := { mailboxId := "uuid-2", processManager := mgr1 }

/-! ### Helper lemmas about the mori map model -/

theorem mori.hasKey_assoc_self {α : Type} (m : List (String × α)) (k : String) (v : α) :
    mori.hasKey (mori.assoc m k v) k = true := by
  simp [mori.hasKey, mori.assoc]

theorem mori.filter_key_filter_ne {α : Type} (m : List (String × α)) (k : String) :
    ((m.filter (fun e => !(e.1 == k))).filter (fun e => e.1 == k)) = [] := by
  induction m with
  | nil => rfl
  | cons e t ih =>
      by_cases h : e.1 = k <;> simp [List.filter_cons, h, ih]

theorem mori.countKey_assoc_self {α : Type} (m : List (String × α)) (k : String) (v : α) :
    mori.countKey (mori.assoc m k v) k = 1 := by
  simp [mori.countKey, mori.assoc, List.filter_cons, mori.filter_key_filter_ne]

theorem mori.get_assoc_self {α : Type} (m : List (String × α)) (k : String) (v : α) :
    mori.get (mori.assoc m k v) k = some v := by
  unfold mori.get mori.assoc
  rw [List.find?_cons_of_pos]
  · rfl
  · simp

theorem mori.hasKey_assoc_of_hasKey {α : Type} (m : List (String × α)) (k k2 : String)
    (v : α) (h : mori.hasKey m k2 = true) : mori.hasKey (mori.assoc m k v) k2 = true := by
  unfold mori.hasKey mori.assoc at *
  simp only [List.any_cons, Bool.or_eq_true, List.any_eq_true] at *
  by_cases hk : k2 = k
  · left; simp [hk]
  · right
    obtain ⟨e, he, hek⟩ := h
    refine ⟨e, List.mem_filter.2 ⟨he, ?_⟩, hek⟩
    simp_all

/-- Characterization of a successful launch: whenever the promise resolves
with a PID, the PID wraps the fresh mailbox address and back-references the
launching manager, and the whole outcome is the success record of
`_launchLocal` (table extended by exactly the launched process, the fresh
mailbox allocated, the handshake request sent to it). -/
theorem launch_ok_eq (m : ProcessManager) (spec : IProcessSpec) (env : LaunchEnv)
    (pid : LocalPid) (h : (m.launch spec env).result = .ok pid) :
    pid = { mailboxId := env.freshMailboxUuid, processManager := m } ∧
    m.launch spec env =
      { result := .ok pid
        mgr := { m with procs := mori.assoc m.procs pid.id (launchedProcOf m spec env) }
        allocatedMailboxes := [env.freshMailboxUuid]
        handshakeRequest := some (env.freshMailboxUuid, Messages.Handshake) } := by
  unfold ProcessManager.launch ProcessManager.launchLocal at h ⊢
  by_cases hl : spec.pType = "local"
  · rw [if_pos hl] at h ⊢
    dsimp only at h ⊢
    split at h
    · obtain rfl : _ = pid := by injection h
      exact ⟨rfl, rfl⟩
    · exact absurd h (by simp)
    · exact absurd h (by simp)
  · rw [if_neg hl] at h
    exact absurd h (by simp)

/-- C1: whenever `launch` resolves with a PID, the manager state at return
time owns that PID (`doesOwn pid = true`), its table holds exactly one
entry keyed `pid.id()`, and the table is exactly the old table with the
launched process inserted under `pid.id()`; whenever `launch` rejects, the
manager state (in particular the table) is unchanged — so a PID is
returned if and only if an entry for it was inserted. -/
theorem launch_registration (m : ProcessManager) (spec : IProcessSpec) (env : LaunchEnv) :
    (∀ pid, (m.launch spec env).result = .ok pid →
        (m.launch spec env).mgr.doesOwn pid = true ∧
        mori.countKey (m.launch spec env).mgr.procs pid.id = 1 ∧
        ∃ proc, (m.launch spec env).mgr.procs = mori.assoc m.procs pid.id proc) ∧
    (∀ e, (m.launch spec env).result = .error e → (m.launch spec env).mgr = m) := by
  unfold ProcessManager.launch ProcessManager.launchLocal
  by_cases h : spec.pType = "local"
  · rw [if_pos h]
    dsimp only
    split
    · constructor
      · intro pid hpid
        obtain rfl : _ = pid := by injection hpid
        refine ⟨mori.hasKey_assoc_self _ _ _, mori.countKey_assoc_self _ _ _, ⟨_, rfl⟩⟩
      · intro e he
        exact absurd he (by simp)
    · refine ⟨fun pid hpid => absurd hpid (by simp), fun e he => rfl⟩
    · refine ⟨fun pid hpid => absurd hpid (by simp), fun e he => rfl⟩
  · rw [if_neg h]
    refine ⟨fun pid hpid => absurd hpid (by simp), fun e he => rfl⟩

/-- Witness for C1: `mgr0` launching `spec0` under `env0` resolves with
`pid0`, and the registration conclusions hold there. -/
theorem launch_registration_witness :
    (mgr0.launch spec0 env0).result = .ok pid0 ∧
    ((mgr0.launch spec0 env0).mgr.doesOwn pid0 = true ∧
      mori.countKey (mgr0.launch spec0 env0).mgr.procs pid0.id = 1 ∧
      ∃ proc, (mgr0.launch spec0 env0).mgr.procs = mori.assoc mgr0.procs pid0.id proc) :=
  ⟨by decide, (launch_registration mgr0 spec0 env0).1 pid0 (by decide)⟩

/-- C2: when the handshake reply does not arrive within the resolved
timeout bound (it never settles, or it settles only at or after the
bound), `launch` rejects with `HandshakeTimeoutError` and the manager
state is unchanged; in particular the late reply does not register the
intended PID's id in the table. -/
theorem launch_timeout_no_registration (m : ProcessManager) (spec : IProcessSpec)
    (env : LaunchEnv) (hlocal : spec.pType = "local")
    (hlate : env.handshakeEvent = .silent ∨
      ∃ a, env.handshakeEvent = .reply a ∧
        jsOr spec.handshakeTimeout m.handshakeTimeout ≤ a) :
    (m.launch spec env).result = .error .HandshakeTimeoutError ∧
    (m.launch spec env).mgr = m ∧
    mori.hasKey (m.launch spec env).mgr.procs env.freshMailboxUuid =
      mori.hasKey m.procs env.freshMailboxUuid := by
  unfold ProcessManager.launch ProcessManager.launchLocal
  rw [if_pos hlocal]
  dsimp only
  rcases hlate with hsil | ⟨a, hev, hge⟩
  · rw [hsil]
    simp [timeoutRace]
  · rw [hev]
    simp [timeoutRace, Nat.not_lt.2 hge]

/-- Witness for C2: a reply arriving at 2000 time-units under the default
1000-unit bound makes the launch reject with the timeout error and leaves
the (empty) table without the intended id. -/
theorem launch_timeout_no_registration_witness :
    (spec0.pType = "local" ∧
      ∃ a, envLate.handshakeEvent = .reply a ∧
        jsOr spec0.handshakeTimeout mgr0.handshakeTimeout ≤ a) ∧
    ((mgr0.launch spec0 envLate).result = .error .HandshakeTimeoutError ∧
      (mgr0.launch spec0 envLate).mgr = mgr0 ∧
      mori.hasKey (mgr0.launch spec0 envLate).mgr.procs envLate.freshMailboxUuid =
        mori.hasKey mgr0.procs envLate.freshMailboxUuid) :=
  ⟨⟨rfl, ⟨2000, rfl, by decide⟩⟩,
    launch_timeout_no_registration mgr0 spec0 envLate rfl
      (Or.inr ⟨2000, rfl, by decide⟩)⟩

/-- C3: a spec whose `pType` tag is not `local` (such as `remote` or any
unknown tag) makes `launch` reject with `InvalidProcessSpecType`, with no
mailbox allocated, no handshake sent and the manager state (in particular
the table) unchanged. -/
theorem launch_invalid_spec (m : ProcessManager) (spec : IProcessSpec) (env : LaunchEnv)
    (h : spec.pType ≠ "local") :
    (m.launch spec env).result = .error .InvalidProcessSpecType ∧
    (m.launch spec env).mgr = m ∧
    (m.launch spec env).allocatedMailboxes = [] ∧
    (m.launch spec env).handshakeRequest = none := by
  unfold ProcessManager.launch
  rw [if_neg h]
  exact ⟨rfl, rfl, rfl, rfl⟩

/-- Witness for C3: launching the `remote`-tagged spec fails with the
invalid-spec error, allocates nothing and mutates nothing. -/
theorem launch_invalid_spec_witness :
    specRemote.pType ≠ "local" ∧
    ((mgr0.launch specRemote env0).result = .error .InvalidProcessSpecType ∧
      (mgr0.launch specRemote env0).mgr = mgr0 ∧
      (mgr0.launch specRemote env0).allocatedMailboxes = [] ∧
      (mgr0.launch specRemote env0).handshakeRequest = none) :=
  ⟨by decide, launch_invalid_spec mgr0 specRemote env0 (by decide)⟩

/-- C4 (evaluation at the failing input): `dispose()` has an empty body, so
it changes nothing about the manager, and a `pid.send` performed after
`dispose()` proceeds exactly as a live send would — it produces the normal
`message` envelope addressed to the PID's mailbox. No disposed state is
recorded and no manager-disposed error is defined anywhere in the code, so
the send cannot fail the way the claim requires. -/
theorem send_after_dispose_proceeds :
    ProcessManager.dispose mgr0 = mgr0 ∧
    LocalPid.send { mailboxId := "uuid-1", processManager := mgr0.dispose }
        (JsVal.str "x") =
      { sender := "pm-0", toId := "uuid-1"
        msg := { mType := "message", data := JsVal.str "x" } } :=
  ⟨rfl, rfl⟩

/-- C5 counterexample: on a local spec carrying `handshakeTimeout = 0` the
code resolves the bound with the JavaScript falsy-or
(`spec.handshakeTimeout || this._handshakeTimeout`), so the bound is the
manager default 1000 — not the present field value 0 — and a reply
arriving at 500 time-units is accepted, which a 0-bounded wait would have
to reject. -/
theorem handshake_timeout_zero_not_honored :
    jsOr (some 0) (ProcessManager.create "pm-0").handshakeTimeout = 1000 ∧
    jsOr (some 0) (ProcessManager.create "pm-0").handshakeTimeout ≠ 0 ∧
    ((ProcessManager.create "pm-0").launch
        { pType := "local", handshakeTimeout := some 0 }
        { freshMailboxUuid := "uuid-1", handshakeEvent := .reply 500 }).result =
      .ok { mailboxId := "uuid-1", processManager := ProcessManager.create "pm-0" } := by
  refine ⟨rfl, by decide, by decide⟩

/-- C5 as amended: for a local launch whose handshake reply settles at `a`,
the launch succeeds exactly when `a` is strictly below the resolved bound
`spec.handshakeTimeout || default`; that bound equals the spec's field
whenever it is present and nonzero, and falls back to the manager default
whenever the field is absent or 0 (JavaScript falsy-or); a freshly
constructed manager's default is 1000 time-units. -/
theorem handshake_timeout_resolution (m : ProcessManager) (spec : IProcessSpec)
    (env : LaunchEnv) (a : Nat) (hlocal : spec.pType = "local")
    (hev : env.handshakeEvent = .reply a) :
    ((m.launch spec env).result =
        .ok { mailboxId := env.freshMailboxUuid, processManager := m } ↔
      a < jsOr spec.handshakeTimeout m.handshakeTimeout) ∧
    (∀ t, spec.handshakeTimeout = some t → t ≠ 0 →
      jsOr spec.handshakeTimeout m.handshakeTimeout = t) ∧
    (spec.handshakeTimeout = none ∨ spec.handshakeTimeout = some 0 →
      jsOr spec.handshakeTimeout m.handshakeTimeout = m.handshakeTimeout) ∧
    (∀ s, (ProcessManager.create s).handshakeTimeout = 1000) := by
  refine ⟨?_, ?_, ?_, fun s => rfl⟩
  · unfold ProcessManager.launch ProcessManager.launchLocal
    rw [if_pos hlocal]
    dsimp only
    rw [hev]
    simp only [timeoutRace]
    by_cases hlt : a < jsOr spec.handshakeTimeout m.handshakeTimeout
    · simp [hlt, Mailbox.ownerIdentity, Exchange.mailbox]
    · simp [hlt]
  · intro t ht hnz
    simp [jsOr, ht, hnz]
  · rintro (h | h) <;> simp [jsOr, h]

/-- Witness for the amended C5: `env0`'s reply at 5 time-units, under the
absent per-launch override, is accepted exactly because 5 is below the
resolved default bound 1000. -/
theorem handshake_timeout_resolution_witness :
    (spec0.pType = "local" ∧ env0.handshakeEvent = .reply 5) ∧
    (((mgr0.launch spec0 env0).result =
        .ok { mailboxId := env0.freshMailboxUuid, processManager := mgr0 } ↔
      5 < jsOr spec0.handshakeTimeout mgr0.handshakeTimeout) ∧
    (∀ t, spec0.handshakeTimeout = some t → t ≠ 0 →
      jsOr spec0.handshakeTimeout mgr0.handshakeTimeout = t) ∧
    (spec0.handshakeTimeout = none ∨ spec0.handshakeTimeout = some 0 →
      jsOr spec0.handshakeTimeout mgr0.handshakeTimeout = mgr0.handshakeTimeout) ∧
    (∀ s, (ProcessManager.create s).handshakeTimeout = 1000)) :=
  ⟨⟨rfl, rfl⟩, handshake_timeout_resolution mgr0 spec0 env0 5 rfl rfl⟩

/-- C6: `sendMessage(targetId, data)` builds a `message` envelope whose
payload is exactly `data` (and the envelope builder defaults an absent
payload to `null`), addresses it to `targetId`, and its behavior does not
depend on the process table (swapping in any other table yields the same
send); and `pid.send(data)` performs exactly its manager's
`sendMessage(pid.id(), data)`. -/
theorem sendMessage_and_send_spec (m m2 : ProcessManager) (targetId : String)
    (d : JsVal) (p : LocalPid) :
    (m.sendMessage targetId d).toId = targetId ∧
    (m.sendMessage targetId d).msg = Messages.Message (some d) ∧
    (m.sendMessage targetId d).msg.data = d ∧
    (Messages.Message none).data = JsVal.null ∧
    ({ m with procs := m2.procs } : ProcessManager).sendMessage targetId d =
      m.sendMessage targetId d ∧
    p.send d = p.processManager.sendMessage p.id d :=
  ⟨rfl, rfl, rfl, rfl, rfl, rfl⟩

/-- C7: the PID of a successful launch carries the fresh mailbox address it
was constructed with as its stable identity (`id()` is a pure read of that
immutable field, so repeated calls agree), and the PIDs of two successive
successful launches whose fresh mailbox addresses differ (the transport
never reuses an address) have different ids. -/
theorem pid_identity_stable_distinct (m : ProcessManager) (spec1 spec2 : IProcessSpec)
    (env1 env2 : LaunchEnv) (pid1 pid2 : LocalPid)
    (hfresh : env1.freshMailboxUuid ≠ env2.freshMailboxUuid)
    (h1 : (m.launch spec1 env1).result = .ok pid1)
    (h2 : ((m.launch spec1 env1).mgr.launch spec2 env2).result = .ok pid2) :
    pid1.id = env1.freshMailboxUuid ∧ pid2.id = env2.freshMailboxUuid ∧
    pid1.id ≠ pid2.id := by
  obtain ⟨rfl, -⟩ := launch_ok_eq _ _ _ _ h1
  obtain ⟨rfl, -⟩ := launch_ok_eq _ _ _ _ h2
  exact ⟨rfl, rfl, hfresh⟩

/-- Witness for C7: two successive launches under fresh addresses `uuid-1`
and `uuid-2` hand back `pid0` and `pid2` with distinct ids. -/
theorem pid_identity_stable_distinct_witness :
    (env0.freshMailboxUuid ≠ env2.freshMailboxUuid ∧
      (mgr0.launch spec0 env0).result = .ok pid0 ∧
      ((mgr0.launch spec0 env0).mgr.launch spec0 env2).result = .ok pid2) ∧
    (pid0.id = env0.freshMailboxUuid ∧ pid2.id = env2.freshMailboxUuid ∧
      pid0.id ≠ pid2.id) :=
  ⟨⟨by decide, by decide, by decide⟩,
    pid_identity_stable_distinct mgr0 spec0 spec0 env0 env2 pid0 pid2
      (by decide) (by decide) (by decide)⟩

/-- C8: when the handshake send-and-receive fails before the timeout bound
for any reason other than the timer firing (delegate rejection, delivery
failure), `launch` rejects with exactly that reason — not swallowed, not
turned into `HandshakeTimeoutError` — and the manager state is
unchanged (no retry, no registration). -/
theorem launch_failure_propagates (m : ProcessManager) (spec : IProcessSpec)
    (env : LaunchEnv) (a : Nat) (e : String) (hlocal : spec.pType = "local")
    (hev : env.handshakeEvent = .failure a e)
    (hin : a < jsOr spec.handshakeTimeout m.handshakeTimeout) :
    (m.launch spec env).result = .error (.transport e) ∧
    (m.launch spec env).mgr = m := by
  unfold ProcessManager.launch ProcessManager.launchLocal
  rw [if_pos hlocal]
  dsimp only
  rw [hev]
  simp [timeoutRace, hin]

/-- Witness for C8: a transport failure `boom` settling at 3 time-units
propagates as the launch rejection, with the manager untouched. -/
theorem launch_failure_propagates_witness :
    (spec0.pType = "local" ∧ envFail.handshakeEvent = .failure 3 "boom" ∧
      3 < jsOr spec0.handshakeTimeout mgr0.handshakeTimeout) ∧
    ((mgr0.launch spec0 envFail).result = .error (.transport "boom") ∧
      (mgr0.launch spec0 envFail).mgr = mgr0) :=
  ⟨⟨rfl, rfl, by decide⟩,
    launch_failure_propagates mgr0 spec0 envFail 3 "boom" rfl rfl (by decide)⟩

/-- C9: for the PID and process pair a successful launch constructs, the
table at return time maps the PID's id to the process, and the PID's
address equals the process's mailbox address: `pid.id() = proc.mailboxId()`. -/
theorem pid_process_address_agreement (m : ProcessManager) (spec : IProcessSpec)
    (env : LaunchEnv) (pid : LocalPid) (h : (m.launch spec env).result = .ok pid) :
    ∃ proc, mori.get (m.launch spec env).mgr.procs pid.id = some proc ∧
      pid.id = proc.mailboxId := by
  obtain ⟨hpid, hout⟩ := launch_ok_eq _ _ _ _ h
  refine ⟨launchedProcOf m spec env, ?_, ?_⟩
  · rw [hout]
    exact mori.get_assoc_self _ _ _
  · rw [hpid]
    rfl

/-- Witness for C9: after the successful launch under `env0`, the table
maps `pid0.id()` to a process whose mailbox address is that same id. -/
theorem pid_process_address_agreement_witness :
    (mgr0.launch spec0 env0).result = .ok pid0 ∧
    ∃ proc, mori.get (mgr0.launch spec0 env0).mgr.procs pid0.id = some proc ∧
      pid0.id = proc.mailboxId :=
  ⟨by decide, pid_process_address_agreement mgr0 spec0 env0 pid0 (by decide)⟩

/-- C10: `dispose()` is the identity on the manager state — it is total
(never throws), arbitrarily repeatable, and leaves `doesOwn`, `mailboxId`
and the whole process table exactly as they were; moreover no operation
removes table entries: any key owned before a `launch` is still owned
after it, whatever the launch outcome. -/
theorem dispose_frame (m : ProcessManager) (pid : LocalPid) (n : Nat)
    (spec : IProcessSpec) (env : LaunchEnv) (k : String) :
    m.dispose = m ∧
    ProcessManager.dispose^[n] m = m ∧
    (m.dispose).doesOwn pid = m.doesOwn pid ∧
    (m.dispose).mailboxId = m.mailboxId ∧
    (m.dispose).procs = m.procs ∧
    (mori.hasKey m.procs k = true →
      mori.hasKey ((m.launch spec env).mgr.procs) k = true) := by
  refine ⟨rfl, Function.iterate_fixed rfl n, rfl, rfl, rfl, ?_⟩
  intro hk
  unfold ProcessManager.launch ProcessManager.launchLocal
  by_cases hl : spec.pType = "local"
  · rw [if_pos hl]
    dsimp only
    split
    · exact mori.hasKey_assoc_of_hasKey _ _ _ _ hk
    · exact hk
    · exact hk
  · rw [if_neg hl]
    exact hk

/-- Witness for C10: the manager `mgr1` (which owns `uuid-1`) still owns it
after a further launch under `env2`, and triple disposal is the identity. -/
theorem dispose_frame_witness :
    mori.hasKey mgr1.procs "uuid-1" = true ∧
    mori.hasKey ((mgr1.launch spec0 env2).mgr.procs) "uuid-1" = true ∧
    ProcessManager.dispose^[3] mgr1 = mgr1 :=
  ⟨by decide,
    (dispose_frame mgr1 pid0 3 spec0 env2 "uuid-1").2.2.2.2.2 (by decide),
    (dispose_frame mgr1 pid0 3 spec0 env2 "uuid-1").2.1⟩
